import Mathlib

/-!
Shallow embedding of the coderview Convex backend: the database schema
(`convex/schema.ts`), the user-directory module (`convex/users.ts`), the
interview registry (the interviews module), the feedback store
(`convex/comments.ts`) and the Clerk webhook handler (`convex/http.ts`).

Stores are modelled as association lists from numeric document ids to
records; a mutation takes the authenticated identity (`Option Identity`,
`none` meaning no session), its arguments and the database, and returns
`Except String (result × DB)` — an error means the mutation threw and no
write took effect, mirroring Convex transaction semantics.  `Date.now()`
becomes an explicit `now : Int` parameter; the svix signature check of the
webhook route is abstracted by a boolean on the request.
-/

namespace Coderview

/-- A Clerk session identity as surfaced by `ctx.auth.getUserIdentity()`;
only the `subject` field (the Clerk user id) is read by the code. -/
structure Identity where
  subject : String
deriving Repr, DecidableEq

/-- A row of the `users` table of `convex/schema.ts`. -/
structure User where
  clerkId : String
  name : String
  email : String
  image : Option String
  role : String
deriving Repr, DecidableEq

/-- A row of the `interviews` table of `convex/schema.ts`; `interviewerIds`
is a single comma-delimited string, as in the schema. -/
structure Interview where
  title : String
  description : Option String
  startTime : Int
  endTime : Option Int
  status : String
  streamCallId : String
  candidateId : String
  interviewerIds : String
deriving Repr, DecidableEq

/-- A row of the `comments` table of `convex/schema.ts`. -/
structure Comment where
  content : String
  rating : Int
  interviewerId : String
  interviewId : Nat
deriving Repr, DecidableEq

/-- The database: three tables keyed by document id, plus the next fresh id. -/
structure DB where
  users : List (Nat × User)
  interviews : List (Nat × Interview)
  comments : List (Nat × Comment)
  nextId : Nat
deriving Repr, DecidableEq

/-- The empty deployment state. -/
def dbEmpty : DB := { users := [], interviews := [], comments := [], nextId := 0 }

/-- Arguments of the `syncUser` mutation (`convex/users.ts`). -/
structure SyncUserArgs where
  clerkId : String
  email : String
  name : String
  image : Option String
deriving Repr, DecidableEq

/-- `syncUser` of `convex/users.ts`: look the user up by `clerkId` through
the `by_clerk_id` index; if found return the existing id and write nothing,
otherwise insert the arguments with `role := "candidate"` and return the
new id.  The mutation performs no auth check (it is invoked by the webhook
action through `ctx.runMutation`). -/
def syncUser (a : SyncUserArgs) (db : DB) : Nat × DB :=
  match db.users.find? (fun u => u.2.clerkId == a.clerkId) with
  | some existingUser => (existingUser.1, db)
  | none =>
      let newUserId := db.nextId
      (newUserId,
        { db with
            users := db.users ++
              [(newUserId,
                { clerkId := a.clerkId, name := a.name, email := a.email,
                  image := a.image, role := "candidate" })],
            nextId := db.nextId + 1 })

/-- `getUsers` of `convex/users.ts`: requires a session, then returns every
user row. -/
def getUsers (auth : Option Identity) (db : DB) :
    Except String (List (Nat × User)) :=
  match auth with
  | none => Except.error "Unauthorized, user is not authenticated"
  | some _ => Except.ok db.users

/-- `getUserByClerkId` of `convex/users.ts`: first match of the
`by_clerk_id` index, no auth check. -/
def getUserByClerkId (clerkId : String) (db : DB) : Option (Nat × User) :=
  db.users.find? (fun u => u.2.clerkId == clerkId)

/-- `getAllInterviews` of the interviews module: requires a session, then
returns every interview row. -/
def getAllInterviews (auth : Option Identity) (db : DB) :
    Except String (List (Nat × Interview)) :=
  match auth with
  | none => Except.error "Unauthorized"
  | some _ => Except.ok db.interviews

/-- `getMyInterviews` of the interviews module: requires a session, then
returns the rows whose `candidateId` equals the caller's subject, via the
`by_candidate_id` index. -/
def getMyInterviews (auth : Option Identity) (db : DB) :
    Except String (List (Nat × Interview)) :=
  match auth with
  | none => Except.error "Unauthorized"
  | some identity =>
      Except.ok (db.interviews.filter (fun r => r.2.candidateId == identity.subject))

/-- Arguments of the `createInterview` mutation; `status` is an arbitrary
client-supplied string and there is no `endTime` argument. -/
structure CreateInterviewArgs where
  title : String
  description : Option String
  startTime : Int
  status : String
  streamCallId : String
  candidateId : String
  interviewerIds : List String
deriving Repr, DecidableEq

/-- `createInterview` of the interviews module: requires a session, then
inserts the arguments as a new row, joining `interviewerIds` into one
comma-separated string.  `endTime` is not among the arguments, so the
inserted row has no `endTime`. -/
def createInterview (auth : Option Identity) (a : CreateInterviewArgs)
    (db : DB) : Except String (Nat × DB) :=
  match auth with
  | none => Except.error "Unauthorized"
  | some _ =>
      let newId := db.nextId
      Except.ok (newId,
        { db with
            interviews := db.interviews ++
              [(newId,
                { title := a.title, description := a.description,
                  startTime := a.startTime, endTime := none,
                  status := a.status, streamCallId := a.streamCallId,
                  candidateId := a.candidateId,
                  interviewerIds := String.intercalate "," a.interviewerIds })],
            nextId := db.nextId + 1 })

/-- The patch object of `updateInterview`: always overwrite `status`, and
spread `{endTime: Date.now()}` exactly when the new status is
`"completed"` (otherwise the `endTime` field is left untouched). -/
def patchInterview (rec : Interview) (status : String) (now : Int) : Interview :=
  { rec with
      status := status,
      endTime := if status == "completed" then some now else rec.endTime }

/-- `updateInterview` of the interviews module: requires a session, then
patches the addressed row with the new status, stamping `endTime` with the
current instant exactly when the new status is `"completed"`.  Patching a
missing id throws, as `ctx.db.patch` does. -/
def updateInterview (auth : Option Identity) (id : Nat) (status : String)
    (now : Int) (db : DB) : Except String (Unit × DB) :=
  match auth with
  | none => Except.error "Unauthorized"
  | some _ =>
      if db.interviews.any (fun r => r.1 == id) then
        Except.ok ((),
          { db with
              interviews := db.interviews.map
                (fun r => if r.1 == id then (r.1, patchInterview r.2 status now) else r) })
      else Except.error "patch: document not found"

/-- `addComment` of `convex/comments.ts`: requires a session, then inserts
the comment with `interviewerId` taken from the caller's verified identity;
the client-supplied arguments carry no interviewer id, and `rating` is
stored as given with no range check. -/
def addComment (auth : Option Identity) (interviewId : Nat) (content : String)
    (rating : Int) (db : DB) : Except String (Nat × DB) :=
  match auth with
  | none => Except.error "Unauthorized"
  | some identity =>
      let newId := db.nextId
      Except.ok (newId,
        { db with
            comments := db.comments ++
              [(newId,
                { content := content, rating := rating,
                  interviewerId := identity.subject, interviewId := interviewId })],
            nextId := db.nextId + 1 })

/-- `getComments` of `convex/comments.ts`: rows of the `by_interview_id`
index, no auth check. -/
def getComments (interviewId : Nat) (db : DB) : List (Nat × Comment) :=
  db.comments.filter (fun r => r.2.interviewId == interviewId)

/-- One entry of the `email_addresses` list of a Clerk `user.created`
event payload. -/
structure EmailEntry where
  email_address : String
deriving Repr, DecidableEq

/-- The `data` payload of a Clerk webhook event, as destructured by the
handler in `convex/http.ts`. -/
structure EventData where
  id : String
  email_addresses : List EmailEntry
  first_name : Option String
  last_name : Option String
  image_url : Option String
deriving Repr, DecidableEq

/-- A Clerk webhook event envelope: a `type` tag and the `data` payload. -/
structure WebhookEvent where
  type : String
  data : EventData
deriving Repr, DecidableEq

/-- An inbound request to `POST /clerk-webhook`.  The three svix headers
are `none` when absent; `signatureValid` abstracts the outcome of the svix
`Webhook.verify` collaborator on this request's body and headers, and
`payload` is the parsed JSON body. -/
structure WebhookRequest where
  svix_id : Option String
  svix_timestamp : Option String
  svix_signature : Option String
  signatureValid : Bool
  payload : WebhookEvent
deriving Repr, DecidableEq

/-- An HTTP response: status code and body text. -/
structure HttpResponse where
  status : Nat
  body : String
deriving Repr, DecidableEq

/-- The ways the webhook handler terminates abnormally instead of
producing a `Response`: the missing-secret throw at the top, and the
JavaScript fault from reading `email_addresses[0].email_address` when the
list is empty (no emptiness guard exists in the code). -/
inductive HandlerFault where
  | missingWebhookSecret
  | emptyEmailList
deriving Repr, DecidableEq

/-- JavaScript `String.prototype.trim`: drop leading and trailing
whitespace.  (Executable counterpart of `.trim()` on the name template;
stated over the character list so that it evaluates by reduction.) -/
def trimString (s : String) : String :=
  String.mk (((s.data.dropWhile Char.isWhitespace).reverse.dropWhile
    Char.isWhitespace).reverse)

/-- JavaScript truthiness of a header value as used by
`if(!svix_id || !svix_timestamp || !svix_signature)`: an absent header is
falsy, and so is an empty string. -/
def falsyHeader : Option String → Bool
  | none => true
  | some s => s == ""

/-- The `/clerk-webhook` route handler of `convex/http.ts`: require the
secret, require the three svix headers, verify the signature, then on a
`"user.created"` event read the first email entry (faulting when the list
is empty), build the display name from the optional name parts, and run
the `syncUser` mutation; every other event type is acknowledged with 200
and no write. -/
def clerkWebhookHandler (webhookSecret : Option String) (req : WebhookRequest)
    (db : DB) : Except HandlerFault (HttpResponse × DB) :=
  match webhookSecret with
  | none => Except.error HandlerFault.missingWebhookSecret
  | some _ =>
      if falsyHeader req.svix_id || falsyHeader req.svix_timestamp ||
          falsyHeader req.svix_signature then
        Except.ok ({ status := 400, body := "missing svix headers" }, db)
      else if req.signatureValid then
        if req.payload.type == "user.created" then
          match req.payload.data.email_addresses with
          | [] => Except.error HandlerFault.emptyEmailList
          | entry :: _ =>
              let email := entry.email_address
              let name :=
                trimString ((req.payload.data.first_name.getD "") ++ " " ++
                  (req.payload.data.last_name.getD ""))
              let sync := syncUser
                { clerkId := req.payload.data.id, email := email, name := name,
                  image := req.payload.data.image_url } db
              Except.ok ({ status := 200, body := "webhook processed successfully" }, sync.2)
        else
          Except.ok ({ status := 200, body := "webhook processed successfully" }, db)
      else
        Except.ok ({ status := 400, body := "invalid svix payload" }, db)

/-- The database a mutation call leaves behind: the returned one on
success, the original on a throw (Convex rolls the transaction back). -/
def mutationDB {α : Type} (db : DB) : Except String (α × DB) → DB
  | Except.ok r => r.2
  | Except.error _ => db

/-- The user rows carrying a given `clerkId`. -/
def usersWithClerkId (db : DB) (clerkId : String) : List (Nat × User) :=
  db.users.filter (fun u => u.2.clerkId == clerkId)

/-- The interview row stored under a given document id, if any. -/
def getInterview (db : DB) (id : Nat) : Option Interview :=
  (db.interviews.find? (fun r => r.1 == id)).map (fun r => r.2)

/-! ### Helper lemmas -/

theorem find?_append_of_none {α : Type} (p : α → Bool) (l1 l2 : List α)
    (h : l1.find? p = none) : (l1 ++ l2).find? p = l2.find? p := by
  induction l1 with
  | nil => rfl
  | cons x xs ih =>
    rw [List.find?] at h
    cases hx : p x with
    | true => rw [hx] at h; exact absurd h (by simp)
    | false =>
      rw [hx] at h
      simpa [List.find?, hx] using ih h

theorem filter_eq_nil_of_find?_none {α : Type} (p : α → Bool) (l : List α)
    (h : l.find? p = none) : l.filter p = [] := by
  rw [List.filter_eq_nil_iff]
  rw [List.find?_eq_none] at h
  exact h

/-- The row `createInterview` inserts for given arguments. -/
def createdRow (a : CreateInterviewArgs) : Interview :=
  { title := a.title, description := a.description, startTime := a.startTime,
    endTime := none, status := a.status, streamCallId := a.streamCallId,
    candidateId := a.candidateId,
    interviewerIds := String.intercalate "," a.interviewerIds }

theorem createInterview_eq (i : Identity) (a : CreateInterviewArgs) (db : DB) :
    createInterview (some i) a db =
      Except.ok (db.nextId,
        { db with
            interviews := db.interviews ++ [(db.nextId, createdRow a)],
            nextId := db.nextId + 1 }) := rfl

theorem getInterview_insert (db : DB) (rec : Interview)
    (hk : ∀ p ∈ db.interviews, p.1 < db.nextId) :
    getInterview
      { db with
          interviews := db.interviews ++ [(db.nextId, rec)],
          nextId := db.nextId + 1 } db.nextId = some rec := by
  unfold getInterview
  have hnone : db.interviews.find? (fun r => r.1 == db.nextId) = none := by
    rw [List.find?_eq_none]
    intro p hp
    have hlt := hk p hp
    simp only [beq_iff_eq]
    omega
  show ((db.interviews ++ [(db.nextId, rec)]).find?
      (fun r => r.1 == db.nextId)).map (fun r => r.2) = some rec
  rw [find?_append_of_none _ _ _ hnone]
  simp [List.find?]

theorem find?_patch_map (l : List (Nat × Interview)) (id : Nat) (s : String)
    (now : Int) :
    (l.map (fun r => if r.1 == id then (r.1, patchInterview r.2 s now) else r)).find?
        (fun r => r.1 == id) =
      (l.find? (fun r => r.1 == id)).map
        (fun r => (r.1, patchInterview r.2 s now)) := by
  induction l with
  | nil => rfl
  | cons x xs ih =>
    cases hx : x.1 == id with
    | true =>
      have hhd : (if x.1 == id then (x.1, patchInterview x.2 s now) else x) =
          (x.1, patchInterview x.2 s now) := by rw [hx]; rfl
      rw [List.map_cons, hhd]
      simp only [List.find?, hx]
      rfl
    | false =>
      have hhd : (if x.1 == id then (x.1, patchInterview x.2 s now) else x) = x := by
        rw [hx]; rfl
      rw [List.map_cons, hhd]
      simp only [List.find?, hx]
      exact ih

theorem updateInterview_ok (db db' : DB) (i : Identity) (id : Nat) (s : String)
    (now : Int)
    (hu : updateInterview (some i) id s now db = Except.ok ((), db')) :
    db' = { db with
      interviews := db.interviews.map
        (fun r => if r.1 == id then (r.1, patchInterview r.2 s now) else r) } := by
  unfold updateInterview at hu
  by_cases hg : db.interviews.any (fun r => r.1 == id) = true
  · rw [if_pos hg] at hu
    simp only [Except.ok.injEq, Prod.mk.injEq, true_and] at hu
    exact hu.symm
  · rw [if_neg hg] at hu
    exact absurd hu (by simp)

theorem getInterview_update (db db' : DB) (i : Identity) (id : Nat) (s : String)
    (now : Int) (rec : Interview)
    (hu : updateInterview (some i) id s now db = Except.ok ((), db'))
    (hrec : getInterview db id = some rec) :
    getInterview db' id = some (patchInterview rec s now) := by
  rw [updateInterview_ok db db' i id s now hu]
  unfold getInterview at hrec ⊢
  show ((db.interviews.map
      (fun r => if r.1 == id then (r.1, patchInterview r.2 s now) else r)).find?
      (fun r => r.1 == id)).map (fun r => r.2) = some (patchInterview rec s now)
  rw [find?_patch_map]
  cases hf : db.interviews.find? (fun r => r.1 == id) with
  | none => rw [hf] at hrec; simp at hrec
  | some pr =>
    rw [hf] at hrec
    have hpr : pr.2 = rec := by
      simpa using hrec
    simp [hpr]

/-! ### Claims -/

/-- Claim C9: an authenticated `addComment` call inserts a comment whose
`interviewerId` is the caller's verified `identity.subject` — the client
arguments carry no interviewer id at all — and any `rating` value is
stored as given, with no range validation. -/
theorem addComment_identity_and_rating (subject : String) (interviewId : Nat)
    (content : String) (rating : Int) (db : DB) :
    addComment (some { subject := subject }) interviewId content rating db =
      Except.ok (db.nextId,
        { db with
            comments := db.comments ++
              [(db.nextId,
                { content := content, rating := rating,
                  interviewerId := subject, interviewId := interviewId })],
            nextId := db.nextId + 1 }) := rfl

/-- Claim C4: each protected operation invoked without a session fails with
an error whose message begins with "Unauthorized", and the stored state
after the call is the original database — no insert or patch happened. -/
theorem unauthorized_all_protected_ops (db : DB) (a : CreateInterviewArgs)
    (id : Nat) (status : String) (now : Int) (interviewId : Nat)
    (content : String) (rating : Int) :
    getUsers none db = Except.error "Unauthorized, user is not authenticated" ∧
    getAllInterviews none db = Except.error "Unauthorized" ∧
    getMyInterviews none db = Except.error "Unauthorized" ∧
    createInterview none a db = Except.error "Unauthorized" ∧
    updateInterview none id status now db = Except.error "Unauthorized" ∧
    addComment none interviewId content rating db = Except.error "Unauthorized" ∧
    mutationDB db (createInterview none a db) = db ∧
    mutationDB db (updateInterview none id status now db) = db ∧
    mutationDB db (addComment none interviewId content rating db) = db := by
  refine ⟨rfl, rfl, rfl, rfl, rfl, rfl, rfl, rfl, rfl⟩

/-- Claim C5: for a caller with identity `x`, `getMyInterviews` succeeds and
returns exactly the stored interview rows whose `candidateId` equals `x`,
and no others, whatever else the database holds. -/
theorem getMyInterviews_exact (x : String) (db : DB) :
    ∃ l, getMyInterviews (some { subject := x }) db = Except.ok l ∧
      ∀ r : Nat × Interview, r ∈ l ↔ r ∈ db.interviews ∧ r.2.candidateId = x := by
  refine ⟨db.interviews.filter (fun r => r.2.candidateId == x), rfl, ?_⟩
  intro r
  simp [List.mem_filter]

/-- Claim C1: two `syncUser` calls with the same `clerkId` (arbitrary other
arguments) return the same internal id, the second call leaves the database
exactly as the first left it (so no field of the existing record is
updated), and afterwards exactly one user row carries that `clerkId` —
assuming the database starts with at most one row for it, the invariant
`syncUser` itself maintains. -/
theorem syncUser_idempotent (db : DB) (a1 a2 : SyncUserArgs)
    (hc : a2.clerkId = a1.clerkId)
    (hwf : (usersWithClerkId db a1.clerkId).length ≤ 1) :
    (syncUser a2 (syncUser a1 db).2).1 = (syncUser a1 db).1 ∧
    (syncUser a2 (syncUser a1 db).2).2 = (syncUser a1 db).2 ∧
    (usersWithClerkId (syncUser a2 (syncUser a1 db).2).2 a1.clerkId).length = 1 := by
  cases hfind : db.users.find? (fun u => u.2.clerkId == a1.clerkId) with
  | some u =>
      have hmem : u ∈ usersWithClerkId db a1.clerkId := by
        unfold usersWithClerkId
        refine List.mem_filter.2 ⟨List.mem_of_find?_eq_some hfind, ?_⟩
        have hp := List.find?_some hfind
        simpa using hp
      have hpos : 0 < (usersWithClerkId db a1.clerkId).length :=
        List.length_pos_of_mem hmem
      have h1 : syncUser a1 db = (u.1, db) := by
        unfold syncUser
        rw [hfind]
      have h2 : syncUser a2 db = (u.1, db) := by
        unfold syncUser
        simp only [hc]
        rw [hfind]
      rw [h1, h2]
      exact ⟨rfl, rfl, le_antisymm hwf hpos⟩
  | none =>
      have h1 : syncUser a1 db =
          (db.nextId,
            { db with
                users := db.users ++
                  [(db.nextId,
                    { clerkId := a1.clerkId, name := a1.name, email := a1.email,
                      image := a1.image, role := "candidate" })],
                nextId := db.nextId + 1 }) := by
        unfold syncUser
        rw [hfind]
      rw [h1]
      have h2 : syncUser a2
          { db with
              users := db.users ++
                [(db.nextId,
                  { clerkId := a1.clerkId, name := a1.name, email := a1.email,
                    image := a1.image, role := "candidate" })],
              nextId := db.nextId + 1 } =
          (db.nextId,
            { db with
                users := db.users ++
                  [(db.nextId,
                    { clerkId := a1.clerkId, name := a1.name, email := a1.email,
                      image := a1.image, role := "candidate" })],
                nextId := db.nextId + 1 }) := by
        unfold syncUser
        simp only [hc]
        rw [find?_append_of_none _ _ _ hfind]
        simp [List.find?]
      rw [h2]
      refine ⟨rfl, rfl, ?_⟩
      have hnil : db.users.filter (fun u => u.2.clerkId == a1.clerkId) = [] :=
        filter_eq_nil_of_find?_none _ _ hfind
      simp [usersWithClerkId, List.filter_append, hnil]

/-- Witness for claim C1 at the empty database and concrete arguments. -/
theorem syncUser_idempotent_witness :
    (syncUser { clerkId := "u_9", email := "e2", name := "n2", image := none }
        (syncUser { clerkId := "u_9", email := "e1", name := "n1", image := none } dbEmpty).2).1 =
      (syncUser { clerkId := "u_9", email := "e1", name := "n1", image := none } dbEmpty).1 ∧
    (syncUser { clerkId := "u_9", email := "e2", name := "n2", image := none }
        (syncUser { clerkId := "u_9", email := "e1", name := "n1", image := none } dbEmpty).2).2 =
      (syncUser { clerkId := "u_9", email := "e1", name := "n1", image := none } dbEmpty).2 ∧
    (usersWithClerkId
        (syncUser { clerkId := "u_9", email := "e2", name := "n2", image := none }
          (syncUser { clerkId := "u_9", email := "e1", name := "n1", image := none } dbEmpty).2).2
        "u_9").length = 1 :=
  syncUser_idempotent dbEmpty
    { clerkId := "u_9", email := "e1", name := "n1", image := none }
    { clerkId := "u_9", email := "e2", name := "n2", image := none }
    rfl (by decide)

/-! ### Concrete scenarios -/

/-- `createInterview` arguments carrying the client-chosen status
`"completed"`. -/
def completedArgs : CreateInterviewArgs :=
  { title := "t1", description := none, startTime := 0, status := "completed",
    streamCallId := "call_1", candidateId := "cand_1", interviewerIds := [] }

/-- `createInterview` arguments with status `"scheduled"` and start time
100. -/
def scheduledArgs : CreateInterviewArgs :=
  { title := "t3", description := none, startTime := 100, status := "scheduled",
    streamCallId := "call_3", candidateId := "cand_3", interviewerIds := ["iv_1"] }

/-- The row `scheduledArgs` creates. -/
def schedRow : Interview :=
  { title := "t3", description := none, startTime := 100, endTime := none,
    status := "scheduled", streamCallId := "call_3", candidateId := "cand_3",
    interviewerIds := "iv_1" }

/-- Database holding one interview created with client status
`"completed"`. -/
def dbCompletedCreate : DB :=
  mutationDB dbEmpty
    (createInterview (some { subject := "rec_1" }) completedArgs dbEmpty)

/-- Database holding one interview created from `scheduledArgs`. -/
def dbSched : DB :=
  mutationDB dbEmpty
    (createInterview (some { subject := "rec_1" }) scheduledArgs dbEmpty)

/-- `dbSched` after completing interview 0 at instant 5. -/
def dbSchedDone : DB :=
  mutationDB dbSched
    (updateInterview (some { subject := "rec_1" }) 0 "completed" 5 dbSched)

/-- `dbSchedDone` after moving interview 0 back to `"scheduled"` at
instant 9. -/
def dbSchedReopened : DB :=
  mutationDB dbSchedDone
    (updateInterview (some { subject := "rec_1" }) 0 "scheduled" 9 dbSchedDone)

/-- `dbSched` after completing interview 0 at instant 50, before its
start time 100. -/
def dbEarlyDone : DB :=
  mutationDB dbSched
    (updateInterview (some { subject := "rec_1" }) 0 "completed" 50 dbSched)

/-- `dbSched` after completing interview 0 at instant 150, after its
start time 100. -/
def dbLateDone : DB :=
  mutationDB dbSched
    (updateInterview (some { subject := "rec_1" }) 0 "completed" 150 dbSched)

/-- `dbSched` after a second creation, with `completedArgs`. -/
def dbSchedPlus : DB :=
  mutationDB dbSched
    (createInterview (some { subject := "rec_1" }) completedArgs dbSched)

/-- `dbSched` after patching interview 0 to `"in-progress"` at instant 7. -/
def dbSchedProgress : DB :=
  mutationDB dbSched
    (updateInterview (some { subject := "rec_1" }) 0 "in-progress" 7 dbSched)

/-- Claim C2 counterexample: two reachable states violate the claimed
iff between `endTime` and `status`.  Creating an interview with client
status `"completed"` stores a completed row with no `endTime`, and moving
a completed interview back to `"scheduled"` keeps the stamped `endTime`. -/
theorem endTime_iff_status_cex :
    getInterview dbCompletedCreate 0 =
      some { title := "t1", description := none, startTime := 0, endTime := none,
             status := "completed", streamCallId := "call_1",
             candidateId := "cand_1", interviewerIds := "" } ∧
    getInterview dbSchedReopened 0 =
      some { title := "t3", description := none, startTime := 100,
             endTime := some 5, status := "scheduled", streamCallId := "call_3",
             candidateId := "cand_3", interviewerIds := "iv_1" } := by
  exact ⟨rfl, rfl⟩

/-- Claim C2 amended: `createInterview` never sets `endTime` (even when
the client-supplied status is `"completed"`), and `updateInterview` is
the only place `endTime` is written: it stamps the system instant `now`
exactly when the new status is `"completed"` and otherwise leaves the
stored value untouched; the mutation's client arguments are just `id` and
`status`, so the stamp cannot come from client input. -/
theorem endTime_policy (i : Identity) (a : CreateInterviewArgs) (db : DB)
    (id rid : Nat) (s : String) (now : Int) (db1 db2 : DB) (rec : Interview)
    (hk : ∀ p ∈ db.interviews, p.1 < db.nextId)
    (hc : createInterview (some i) a db = Except.ok (rid, db1))
    (hu : updateInterview (some i) id s now db = Except.ok ((), db2))
    (hrec : getInterview db id = some rec) :
    (getInterview db1 rid).map Interview.endTime = some none ∧
    getInterview db2 id =
      some { rec with
             status := s,
             endTime := if s == "completed" then some now else rec.endTime } := by
  constructor
  · rw [createInterview_eq] at hc
    simp only [Except.ok.injEq, Prod.mk.injEq] at hc
    obtain ⟨hrid, hdb1⟩ := hc
    rw [← hdb1, ← hrid, getInterview_insert db (createdRow a) hk]
    rfl
  · rw [getInterview_update db db2 i id s now rec hu hrec]
    rfl

/-- Witness for claim C2 at a database holding one scheduled interview. -/
theorem endTime_policy_witness :
    (getInterview dbSchedPlus 1).map Interview.endTime = some none ∧
    getInterview dbSchedProgress 0 =
      some { schedRow with
             status := "in-progress",
             endTime := if "in-progress" == "completed" then some (7 : Int)
                        else schedRow.endTime } :=
  endTime_policy { subject := "rec_1" } completedArgs dbSched 0 1 "in-progress" 7
    dbSchedPlus dbSchedProgress schedRow (by decide) rfl rfl rfl

/-- Claim C3 counterexample: an interview created with status
`"scheduled"` and start time 100 then completed at instant 50 ends with
`endTime = 50 < 100 = startTime`, so the claimed `endTime ≥ startTime`
fails. -/
theorem completed_before_start_cex :
    getInterview dbEarlyDone 0 =
      some { title := "t3", description := none, startTime := 100,
             endTime := some 50, status := "completed", streamCallId := "call_3",
             candidateId := "cand_3", interviewerIds := "iv_1" } ∧
    ¬ ((50 : Int) ≥ 100) := by
  exact ⟨rfl, by decide⟩

/-- Claim C3 amended: after creation with status `"scheduled"` the row
has no `endTime`; completing it at instant `now` stamps `endTime = now`,
which is ≥ `startTime` exactly when the completion instant is — the code
itself never compares the two. -/
theorem scheduled_then_completed (i : Identity) (a : CreateInterviewArgs)
    (db db1 db2 : DB) (rid : Nat) (now : Int)
    (hs : a.status = "scheduled")
    (hk : ∀ p ∈ db.interviews, p.1 < db.nextId)
    (hc : createInterview (some i) a db = Except.ok (rid, db1))
    (hu : updateInterview (some i) rid "completed" now db1 = Except.ok ((), db2))
    (hnow : a.startTime ≤ now) :
    getInterview db1 rid = some (createdRow a) ∧
    (createdRow a).endTime = none ∧
    (createdRow a).status = "scheduled" ∧
    ∃ e, (getInterview db2 rid).map Interview.endTime = some (some e) ∧
      a.startTime ≤ e := by
  rw [createInterview_eq] at hc
  simp only [Except.ok.injEq, Prod.mk.injEq] at hc
  obtain ⟨hrid, hdb1⟩ := hc
  have h1 : getInterview db1 rid = some (createdRow a) := by
    rw [← hdb1, ← hrid]
    exact getInterview_insert db (createdRow a) hk
  refine ⟨h1, rfl, hs, now, ?_, hnow⟩
  rw [getInterview_update db1 db2 i rid "completed" now (createdRow a) hu h1]
  rfl

/-- Witness for claim C3: the scheduled interview completed at instant
150 ≥ its start time 100. -/
theorem scheduled_then_completed_witness :
    getInterview dbSched 0 = some (createdRow scheduledArgs) ∧
    (createdRow scheduledArgs).endTime = none ∧
    (createdRow scheduledArgs).status = "scheduled" ∧
    ∃ e, (getInterview dbLateDone 0).map Interview.endTime = some (some e) ∧
      scheduledArgs.startTime ≤ e :=
  scheduled_then_completed { subject := "rec_1" } scheduledArgs dbEmpty dbSched
    dbLateDone 0 150 rfl (by decide) rfl rfl (by decide)

/-- Claim C10: `updateInterview` touches nothing but the addressed row's
`status` and (only on a `"completed"` transition) its `endTime`: users,
comments and the id counter are unchanged, rows with other ids are kept
as they were, and the addressed row keeps every other field — in
particular a previously stamped `endTime` survives a transition away from
`"completed"`. -/
theorem updateInterview_frame (i : Identity) (db db' : DB) (id : Nat)
    (s : String) (now : Int)
    (hu : updateInterview (some i) id s now db = Except.ok ((), db')) :
    db'.users = db.users ∧ db'.comments = db.comments ∧
    db'.nextId = db.nextId ∧
    ∀ k rec, (k, rec) ∈ db.interviews →
      (k ≠ id → (k, rec) ∈ db'.interviews) ∧
      (k = id →
        (k, { rec with
              status := s,
              endTime := if s == "completed" then some now else rec.endTime })
          ∈ db'.interviews) := by
  rw [updateInterview_ok db db' i id s now hu]
  refine ⟨rfl, rfl, rfl, ?_⟩
  intro k rec hmem
  have hmm := List.mem_map_of_mem
    (fun r => if r.1 == id then (r.1, patchInterview r.2 s now) else r) hmem
  constructor
  · intro hne
    have hkid : (k == id) = false := beq_eq_false_iff_ne.mpr hne
    have hfix : (fun r => if (r.1 == id) = true
          then (r.1, patchInterview r.2 s now) else r) ((k : Nat), rec) =
        (k, rec) := by
      simp [hkid]
    rw [hfix] at hmm
    exact hmm
  · intro heq
    subst heq
    have hfix : (fun r => if (r.1 == k) = true
          then (r.1, patchInterview r.2 s now) else r) ((k : Nat), rec) =
        (k, patchInterview rec s now) := by
      simp
    rw [hfix] at hmm
    exact hmm

/-- Witness for claim C10: completing the scheduled interview at instant
200 keeps every other field of its row. -/
theorem updateInterview_frame_witness :
    (0, { schedRow with
          status := "completed",
          endTime := if "completed" == "completed" then some (200 : Int)
                     else schedRow.endTime }) ∈
      (mutationDB dbSched
        (updateInterview (some { subject := "rec_1" }) 0 "completed" 200
          dbSched)).interviews :=
  ((updateInterview_frame { subject := "rec_1" } dbSched
      (mutationDB dbSched
        (updateInterview (some { subject := "rec_1" }) 0 "completed" 200 dbSched))
      0 "completed" 200 rfl).2.2.2 0 schedRow (by decide)).2 rfl

/-- Claim C6: when the three svix headers are present but the signature
does not verify, the handler answers 400 "invalid svix payload" and
returns the database untouched — no user row is inserted. -/
theorem tampered_signature_rejected (secret : String) (req : WebhookRequest)
    (db : DB)
    (h1 : falsyHeader req.svix_id = false)
    (h2 : falsyHeader req.svix_timestamp = false)
    (h3 : falsyHeader req.svix_signature = false)
    (hv : req.signatureValid = false) :
    clerkWebhookHandler (some secret) req db =
      Except.ok ({ status := 400, body := "invalid svix payload" }, db) := by
  unfold clerkWebhookHandler
  rw [h1, h2, h3, hv]
  rfl

/-- A webhook request whose signature fails verification. -/
def tamperedReq : WebhookRequest :=
  { svix_id := some "msg_2", svix_timestamp := some "123",
    svix_signature := some "v1,bad", signatureValid := false,
    payload :=
      { type := "user.created",
        data :=
          { id := "u_2", email_addresses := [{ email_address := "x@y.zz" }],
            first_name := none, last_name := none, image_url := none } } }

/-- Witness for claim C6 on a concrete tampered request. -/
theorem tampered_signature_rejected_witness :
    clerkWebhookHandler (some "whsec") tamperedReq dbEmpty =
      Except.ok ({ status := 400, body := "invalid svix payload" }, dbEmpty) :=
  tampered_signature_rejected "whsec" tamperedReq dbEmpty rfl rfl rfl rfl

/-- Claim C7: a verified `"user.created"` event whose `email_addresses`
list is empty makes the handler fault on reading the first element — the
code has no emptiness guard and produces no guarded error response. -/
theorem empty_email_list_faults (secret : String) (req : WebhookRequest)
    (db : DB)
    (h1 : falsyHeader req.svix_id = false)
    (h2 : falsyHeader req.svix_timestamp = false)
    (h3 : falsyHeader req.svix_signature = false)
    (hv : req.signatureValid = true)
    (ht : req.payload.type = "user.created")
    (he : req.payload.data.email_addresses = []) :
    clerkWebhookHandler (some secret) req db =
      Except.error HandlerFault.emptyEmailList := by
  unfold clerkWebhookHandler
  rw [h1, h2, h3, hv, ht, he]
  rfl

/-- A verified `"user.created"` request with an empty email list. -/
def emptyEmailReq : WebhookRequest :=
  { svix_id := some "msg_3", svix_timestamp := some "456",
    svix_signature := some "v1,good", signatureValid := true,
    payload :=
      { type := "user.created",
        data :=
          { id := "u_3", email_addresses := [], first_name := some "Bo",
            last_name := none, image_url := none } } }

/-- Witness for claim C7 on a concrete empty-email request. -/
theorem empty_email_list_faults_witness :
    clerkWebhookHandler (some "whsec") emptyEmailReq dbEmpty =
      Except.error HandlerFault.emptyEmailList :=
  empty_email_list_faults "whsec" emptyEmailReq dbEmpty rfl rfl rfl rfl rfl rfl

/-- The webhook request of the spec's example scenario. -/
def scenarioReq : WebhookRequest :=
  { svix_id := some "msg_1", svix_timestamp := some "1700000000",
    svix_signature := some "v1,valid", signatureValid := true,
    payload :=
      { type := "user.created",
        data :=
          { id := "u_1", email_addresses := [{ email_address := "a@b.com" }],
            first_name := some "Ann", last_name := none, image_url := none } } }

/-- The database the example scenario produces. -/
def scenarioDB : DB :=
  { users := [(0, { clerkId := "u_1", name := "Ann", email := "a@b.com",
                    image := none, role := "candidate" })],
    interviews := [], comments := [], nextId := 1 }

/-- Claim C8: the spec's example webhook produces the expected user row —
`clerkId = "u_1"`, `email = "a@b.com"`, `name = "Ann"`,
`role = "candidate"` — and replaying the identical request answers 200
again without a second row. -/
theorem webhook_user_created_scenario :
    clerkWebhookHandler (some "whsec") scenarioReq dbEmpty =
      Except.ok ({ status := 200, body := "webhook processed successfully" },
        scenarioDB) ∧
    scenarioDB.users =
      [(0, { clerkId := "u_1", name := "Ann", email := "a@b.com",
             image := none, role := "candidate" })] ∧
    clerkWebhookHandler (some "whsec") scenarioReq scenarioDB =
      Except.ok ({ status := 200, body := "webhook processed successfully" },
        scenarioDB) := by
  exact ⟨rfl, rfl, rfl⟩

end Coderview
